import Mathlib

/-!
# Verification of the DataToolKit reconciliation engine

A shallow embedding of `src/recon_engine.py` (class `ReconEngine`, a
DuckDB-backed reconciliation engine) together with proofs about its
normalization, filtering, union and reconciliation operations.

Modelling conventions:
* A DuckDB cell is a `DVal`: SQL `NULL`, a `VARCHAR` string, or a numeric
  value.  `DOUBLE` values are modelled as rationals; every number produced
  by the engine's own cleaning pipeline parses from a finite decimal
  string, so its denominator divides a power of ten.
* A table is a header (column names with declared types, in order) plus a
  list of rows; `CREATE OR REPLACE TABLE` is replacement at a name in a
  name-to-table store.
* SQL three-valued logic is modelled with `Option Bool`; a `WHERE` clause
  keeps a row exactly when the predicate evaluates to `some true`.
* Python exceptions are modelled with `Except`; engine methods that can
  raise before mutating the store return the unchanged state alongside the
  error, mirroring the position of the `raise` relative to the `execute`
  calls in the source.
-/

namespace DataToolKit

/-- A DuckDB cell value: SQL NULL, a VARCHAR string, or a numeric value
(`DOUBLE`/`BIGINT` modelled as `ℚ`). -/
inductive DVal where
  | null : DVal
  | str : String → DVal
  | num : ℚ → DVal
deriving DecidableEq

/-- Declared DuckDB column types that can occur in this engine's tables
(CSV auto-detection and the engine's own transforms). -/
inductive ColType where
  | BIGINT | INTEGER | DOUBLE | FLOAT | VARCHAR | BOOLEAN | DATE
deriving DecidableEq

/-! ## SQL string primitives -/

/-- SQL `TRIM` (default): strip leading and trailing spaces. -/
def trimSpaces (cs : List Char) : List Char :=
  ((cs.dropWhile (· == ' ')).reverse.dropWhile (· == ' ')).reverse

/-- SQL `TRIM(BOTH '()' FROM s)`: strip leading and trailing parenthesis
characters. -/
def isParenChar (c : Char) : Bool := c == '(' || c == ')'

def trimBothParens (cs : List Char) : List Char :=
  ((cs.dropWhile isParenChar).reverse.dropWhile isParenChar).reverse

/-- SQL `regexp_replace(s, '[^0-9.,-]', '', 'g')`: keep only digits, period,
comma and minus. -/
def keepAmountChar (c : Char) : Bool := c.isDigit || c == '.' || c == ',' || c == '-'

def stripNonAmount (cs : List Char) : List Char := cs.filter keepAmountChar

/-- SQL `REPLACE(s, ',', '')`: remove all commas. -/
def removeCommas (cs : List Char) : List Char := cs.filter (fun c => !(c == ','))

/-- Does `f` accept some suffix of the list (including the list itself and
the empty suffix)? -/
def sfxAny (f : List Char → Bool) : List Char → Bool
  | [] => f []
  | s@(_ :: s2) => f s || sfxAny f s2

/-- SQL `LIKE` pattern matching (case sensitive): `%` matches any sequence
(some suffix of the remaining subject matches the remaining pattern), `_`
matches any single character, everything else matches itself. -/
def likeMatch : List Char → List Char → Bool
  | [], s => s.isEmpty
  | c :: ps, s =>
    if c = '%' then sfxAny (likeMatch ps) s
    else
      match s with
      | [] => false
      | d :: s2 => (c == '_' || c == d) && likeMatch ps s2

/-- Decimal digit string to natural number. -/
def digitsToNat (cs : List Char) : Nat := cs.foldl (fun a c => a * 10 + (c.toNat - 48)) 0

/-- Unsigned decimal body of a `DOUBLE` cast: digits with at most one
period, at least one digit overall (`"1."`, `".5"` are valid, `"."`,
`"1.2.3"` are not). -/
def parseDecimalBody (cs : List Char) : Option ℚ :=
  match cs.splitOn '.' with
  | [ip] => if ip ≠ [] ∧ ip.all Char.isDigit then some (digitsToNat ip) else none
  | [ip, fp] =>
    if (ip ++ fp) ≠ [] ∧ (ip ++ fp).all Char.isDigit then
      some ((digitsToNat ip : ℚ) + (digitsToNat fp : ℚ) / (10 ^ fp.length))
    else none
  | _ => none

/-- SQL `TRY_CAST(s AS DOUBLE)`: optional sign, then a decimal body; `none` on
failure.  (Exponent notation cannot occur here: every string this is
applied to has already been stripped down to the alphabet `[0-9.,-]`.) -/
def tryCastDouble (cs : List Char) : Option ℚ :=
  match trimSpaces cs with
  | [] => none
  | '-' :: rest => (parseDecimalBody rest).map (fun q => -q)
  | '+' :: rest => parseDecimalBody rest
  | other => parseDecimalBody other

/-- SQL `TRY_CAST(s AS INTEGER)`: optional sign, all digits, 32-bit range
check; `none` on failure. -/
def intInRange (n : Int) : Option Int :=
  if -2147483648 ≤ n ∧ n ≤ 2147483647 then some n else none

def tryCastInt (cs : List Char) : Option Int :=
  match trimSpaces cs with
  | [] => none
  | '-' :: rest =>
    if rest ≠ [] ∧ rest.all Char.isDigit then intInRange (-(digitsToNat rest : Int)) else none
  | '+' :: rest =>
    if rest ≠ [] ∧ rest.all Char.isDigit then intInRange ((digitsToNat rest : Int)) else none
  | other => if other.all Char.isDigit then intInRange (digitsToNat other) else none

/-- SQL `LPAD(s, n, p)`: left-pad to length `n`, truncating on the right if `s`
is already longer. -/
def lpad (cs : List Char) (n : Nat) (p : Char) : List Char :=
  if n ≤ cs.length then cs.take n else List.replicate (n - cs.length) p ++ cs

/-- SQL `SPLIT_PART(s, sep, i)` (1-indexed; empty string when out of range). -/
def splitPart (cs : List Char) (sep : Char) (i : Nat) : List Char :=
  (cs.splitOn sep).getD (i - 1) []

/-- SQL `CAST(v AS VARCHAR)` for the values of this model.  DuckDB renders a
`DOUBLE` as a decimal string; every numeric value reachable in this
pipeline parses from a finite decimal, so its denominator divides a power
of ten and the rendering below is exact (the fallback branch is
unreachable for such values). -/
def numVarchar (q : ℚ) : String :=
  if q.den = 1 then toString q.num ++ ".0"
  else
    match (List.range 40).find? (fun k => (10 ^ k) % q.den == 0) with
    | some k =>
      let m := (q.num.natAbs * 10 ^ k) / q.den
      let ip := m / 10 ^ k
      let fp := m % 10 ^ k
      (if q.num < 0 then "-" else "") ++ toString ip ++ "." ++
        String.mk (lpad (toString fp).data k '0')
    | none => toString q

def castVarchar : DVal → Option String
  | .null => none
  | .str s => some s
  | .num q => some (numVarchar q)

/-! ## Amount normalization (`ReconEngine.clean_amount_column`, UPDATE) -/

/-- The branch test `TRIM(col) LIKE '(%)'`. -/
def likeParenPat : List Char := ['(', '%', ')']

def amountParenBranch (s : String) : Bool := likeMatch likeParenPat (trimSpaces s.data)

/-- The cleaned text fed to `TRY_CAST(… AS DOUBLE)`: in the parenthesis
branch the trimmed value is stripped of parentheses first, otherwise the
raw varchar is used; both branches then strip to `[0-9.,-]` and remove
commas. -/
def amountCleanText (s : String) : List Char :=
  if amountParenBranch s then removeCommas (stripNonAmount (trimBothParens (trimSpaces s.data)))
  else removeCommas (stripNonAmount s.data)

/-- Per-row amount cleaning on a varchar value: `TRY_CAST` of the cleaned
text, negated in the parenthesis branch; a failed cast yields NULL. -/
def cleanAmountStr (s : String) : DVal :=
  match tryCastDouble (amountCleanText s) with
  | some q => .num (if amountParenBranch s then -q else q)
  | none => .null

/-- Per-row amount cleaning: the `CASE` expression of the UPDATE in
`clean_amount_column`.  A NULL input propagates to NULL. -/
def cleanAmountValue (v : DVal) : DVal :=
  match castVarchar v with
  | none => .null
  | some s => cleanAmountStr s

/-! ## Date normalization (`ReconEngine.clean_date_column`, UPDATE) -/

/-- Pattern `'____-__-__'` of the first branch: exactly ten characters with hyphens at positions
5 and 8 (1-indexed); `_` matches ANY character, digits are not required. -/
def likeHyphenPat : List Char := ['_','_','_','_','-','_','_','-','_','_']

/-- Pattern `'%/%/%'` of the slash branch: at least two slashes anywhere. -/
def likeSlashPat : List Char := ['%','/','%','/','%']

/-- Test `TRY_CAST(part AS INTEGER) > 12` (false when the cast is NULL). -/
def partGT12 (cs : List Char) : Bool :=
  match tryCastInt cs with
  | some n => decide (n > 12)
  | none => false

/-- Per-row date cleaning on a varchar value: the `CASE` expression of the
UPDATE in `clean_date_column`. -/
def cleanDateStr (s : String) : String :=
  if likeMatch likeHyphenPat s.data then s
  else if likeMatch likeSlashPat s.data then
    let p1 := splitPart s.data '/' 1
    let p2 := splitPart s.data '/' 2
    let p3 := splitPart s.data '/' 3
    if partGT12 p1 then
      String.mk (p3 ++ '-' :: (lpad p2 2 '0' ++ '-' :: lpad p1 2 '0'))
    else if partGT12 p2 then
      String.mk (p3 ++ '-' :: (lpad p1 2 '0' ++ '-' :: lpad p2 2 '0'))
    else
      String.mk (p3 ++ '-' :: (lpad p2 2 '0' ++ '-' :: lpad p1 2 '0'))
  else s

/-- Per-row date cleaning on any cell; NULL propagates to NULL. -/
def cleanDateValue (v : DVal) : DVal :=
  match castVarchar v with
  | none => .null
  | some s => .str (cleanDateStr s)

/-! ## Tables and the table store -/

/-- A DuckDB table: ordered header (name, declared type) plus rows. -/
structure Table where
  header : List (String × ColType)
  rows : List (List DVal)
deriving DecidableEq

def colNames (t : Table) : List String := t.header.map Prod.fst

def colIdx (t : Table) (c : String) : Nat := (colNames t).indexOf c

def colTy (t : Table) (c : String) : Option ColType :=
  (t.header.find? (fun p => p.fst == c)).map Prod.snd

def rowVal (t : Table) (r : List DVal) (c : String) : DVal := r.getD (colIdx t c) .null

def colValsOf (t : Table) (c : String) : List DVal := t.rows.map (fun r => rowVal t r c)

/-- The in-memory table store (`CREATE OR REPLACE TABLE` replaces at a
name). -/
abbrev Store := List (String × Table)

def getTable (st : Store) (n : String) : Option Table :=
  (st.find? (fun p => p.1 == n)).map (·.2)

def putTable (st : Store) (n : String) (t : Table) : Store :=
  (n, t) :: st.filter (fun p => !(p.1 == n))

/-- Engine state: the DuckDB store plus the two `_source_x_loaded` flags. -/
structure EngState where
  store : Store
  sourceALoaded : Bool
  sourceBLoaded : Bool
deriving DecidableEq

/-! ## Column cleaning operations (`clean_amount_column`, `clean_date_column`) -/

/-- Probe `SELECT typeof(col) FROM t LIMIT 1`: the per-value `typeof` of a typed
column is its declared type; an empty table yields no row at all
(`fetchone()` returns `None`). -/
def typeofFirstRow (t : Table) (c : String) : Option ColType :=
  if t.rows.isEmpty then none else colTy t c

/-- The type whitelist of the early-return guard in `clean_amount_column`. -/
def numericTypes : List ColType := [.DOUBLE, .BIGINT, .INTEGER, .FLOAT]

/-- Guard `if col_type and col_type[0] in ('DOUBLE','BIGINT','INTEGER','FLOAT')`. -/
def alreadyNumeric (t : Table) (c : String) : Bool :=
  match typeofFirstRow t c with
  | some ty => decide (ty ∈ numericTypes)
  | none => false

/-- Steps `ADD COLUMN _cleaned ty; UPDATE _cleaned = f(col); DROP COLUMN col;
RENAME _cleaned TO col`: the column moves to the end with the new type and
per-row-transformed values. -/
def replaceColumn (t : Table) (c : String) (ty : ColType) (f : DVal → DVal) : Table :=
  let i := colIdx t c
  { header := t.header.eraseIdx i ++ [(c, ty)]
    rows := t.rows.map (fun r => r.eraseIdx i ++ [f (r.getD i .null)]) }

/-- Model of `ReconEngine.clean_amount_column`: early return 0 when the first-row
`typeof` is whitelisted, otherwise run the cleaning pass and return the
table's row count. -/
def cleanAmountColumn (t : Table) (c : String) : Table × Nat :=
  if alreadyNumeric t c then (t, 0)
  else
    let t2 := replaceColumn t c .DOUBLE cleanAmountValue
    (t2, t2.rows.length)

/-- Model of `ReconEngine.clean_date_column`: always runs the cleaning pass and
returns the table's row count. -/
def cleanDateColumn (t : Table) (c : String) : Table × Nat :=
  let t2 := replaceColumn t c .VARCHAR cleanDateValue
  (t2, t2.rows.length)

/-! ## Filtering (`ReconEngine.filter_data`, `contains` operator) -/

/-- Semantics of `col LIKE pattern` in a `WHERE` clause: NULL is not kept; numeric
values would be implicitly cast to their VARCHAR rendering, which no claim
exercises (the claims quantify over string-valued columns). -/
def sqlLikeKeep (v : DVal) (pat : List Char) : Bool :=
  match v with
  | .str s => likeMatch pat s.data
  | .null => false
  | .num q => likeMatch pat (numVarchar q).data

/-- The pattern `filter_data` builds for the `contains` operator:
`LIKE '%value%'` (the operand is spliced into the pattern verbatim, so
`%` and `_` inside it act as wildcards). -/
def containsPat (v : String) : List Char := '%' :: (v.data ++ ['%'])

/-- Model of `filter_data` with the single condition `{column, contains, value}`:
`CREATE OR REPLACE TABLE out AS SELECT * FROM t WHERE "col" LIKE '%value%'`. -/
def filterContains (t : Table) (c : String) (v : String) : Table :=
  { header := t.header
    rows := t.rows.filter (fun r => sqlLikeKeep (rowVal t r c) (containsPat v)) }

/-! ## Union (`ReconEngine.union_tables`) -/

inductive UnionError where
  | noTables : UnionError
  | missingTable : UnionError
  | schemaMismatch (table : String) (missing extra : Finset String) : UnionError
deriving DecidableEq

/-- The column-name set of a table (Python `set(self.get_columns(...))`). -/
def colNameSet (t : Table) : Finset String := (colNames t).toFinset

/-- The validation loop: first table (in order) whose column-name set
differs from the reference, with the reported `missing`/`extra` sets. -/
def firstMismatch (ref : Finset String) :
    List (String × Table) → Option (String × Finset String × Finset String)
  | [] => none
  | (n, t) :: rest =>
    let cur := colNameSet t
    if cur ≠ ref then some (n, ref \ cur, cur \ ref) else firstMismatch ref rest

/-- Step `UNION ALL` of the resolved tables: positional concatenation under the
first table's header. -/
def concatTables (t0 : Table) (rest : List (String × Table)) : Table :=
  { header := t0.header, rows := t0.rows ++ (rest.map (fun p => p.2.rows)).flatten }

/-- The pure core of `union_tables` on resolved (name, table) pairs. -/
def unionCore (tabs : List (String × Table)) (validate : Bool) :
    Except UnionError Table :=
  match tabs with
  | [] => .error .noTables
  | (_, t0) :: rest =>
    if validate ∧ rest ≠ [] then
      match firstMismatch (colNameSet t0) rest with
      | some (n, m, e) => .error (.schemaMismatch n m e)
      | none => .ok (concatTables t0 rest)
    else .ok (concatTables t0 rest)

def resolveAll (st : Store) (names : List String) : Option (List (String × Table)) :=
  names.mapM (fun n => (getTable st n).map (fun t => (n, t)))

/-- Model of `ReconEngine.union_tables` on the engine state: the store is written
only on success (every `raise` in the source happens before the final
`CREATE OR REPLACE`). -/
def unionTablesOp (st : EngState) (names : List String) (out : String) (validate : Bool) :
    Except UnionError Unit × EngState :=
  match resolveAll st.store names with
  | none => (.error .missingTable, st)
  | some tabs =>
    match unionCore tabs validate with
    | .error e => (.error e, st)
    | .ok t => (.ok (), { st with store := putTable st.store out t })

/-! ## Reconciliation (`ReconEngine.reconcile`) -/

/-- Model of `models.ReconConfig`. -/
structure ReconConfig where
  sourceAPath : String
  sourceBPath : String
  outputDir : String
  matchKey : String
  amountTolerance : ℚ := 0
  dateColA : String := "date"
  dateColB : String := "date"
  amountColA : String := "amount"
  amountColB : String := "amount"
  descColA : Option String := none
  descColB : Option String := none
deriving DecidableEq

/-- Model of `models.ReconSummary`. -/
structure ReconSummary where
  exactMatches : Nat := 0
  matchesWithDateNote : Nat := 0
  amountVariances : Nat := 0
  missingInB : Nat := 0
  missingInA : Nat := 0
deriving DecidableEq

def ReconSummary.totalMatched (s : ReconSummary) : Nat :=
  s.exactMatches + s.matchesWithDateNote

def ReconSummary.totalUnmatched (s : ReconSummary) : Nat :=
  s.amountVariances + s.missingInB + s.missingInA

/-- Model of `models.ReconResult` (the result-table names are fixed constants). -/
structure ReconResult where
  config : ReconConfig
  summary : ReconSummary
deriving DecidableEq

/-- SQL `=` under three-valued logic: NULL never compares equal (`none`);
the reconciliation queries compare key columns (and date columns) of one
common comparable type, so a mixed-type comparison is modelled as false. -/
def sqlEqB : DVal → DVal → Option Bool
  | .null, _ => none
  | _, .null => none
  | .str s, .str t => some (decide (s = t))
  | .num p, .num q => some (decide (p = q))
  | _, _ => some false

/-- SQL `!=` under three-valued logic. -/
def sqlNeB (a b : DVal) : Option Bool := (sqlEqB a b).map (!·)

/-- Predicate `ABS(a - b) <= tol` under three-valued logic (NULL operand → NULL);
amount columns hold numeric-or-NULL values after cleaning. -/
def sqlAbsLe (a b : DVal) (tol : ℚ) : Option Bool :=
  match a, b with
  | .num p, .num q => some (decide (|p - q| ≤ tol))
  | _, _ => none

/-- Predicate `ABS(a - b) > tol` under three-valued logic. -/
def sqlAbsGt (a b : DVal) (tol : ℚ) : Option Bool :=
  match a, b with
  | .num p, .num q => some (decide (tol < |p - q|))
  | _, _ => none

/-- Value `ABS(a - b)` (the `variance` output column). -/
def sqlAbsDiff (a b : DVal) : DVal :=
  match a, b with
  | .num p, .num q => .num |p - q|
  | _, _ => .null

/-- A `WHERE` clause keeps a row exactly when its predicate is `some true`. -/
def tvTrue (o : Option Bool) : Bool := o.getD false

/-- One source row as seen by the reconciliation queries: the full
original row plus the key/date/amount/description cells named by the
configuration. -/
structure SrcRow where
  orig : List DVal
  key : DVal
  date : DVal
  amount : DVal
  desc : DVal
deriving DecidableEq

def srcView (t : Table) (keyC dateC amtC : String) (descC : Option String) : List SrcRow :=
  t.rows.map (fun r =>
    { orig := r
      key := rowVal t r keyC
      date := rowVal t r dateC
      amount := rowVal t r amtC
      desc := match descC with | some c => rowVal t r c | none => .null })

/-- Join `FROM source_a a INNER JOIN source_b b ON a.key = b.key`: every pair
whose keys compare equal (many-to-many, in nested-loop order). -/
def joinedPairs (A B : List SrcRow) : List (SrcRow × SrcRow) :=
  A.flatMap (fun a => (B.filter (fun b => tvTrue (sqlEqB a.key b.key))).map (fun b => (a, b)))

/-- Clause `WHERE a.date = b.date AND ABS(a.amount - b.amount) <= tol`. -/
def exactPred (tol : ℚ) (p : SrcRow × SrcRow) : Bool :=
  tvTrue (sqlEqB p.1.date p.2.date) && tvTrue (sqlAbsLe p.1.amount p.2.amount tol)

/-- Clause `WHERE a.date != b.date AND ABS(a.amount - b.amount) <= tol`. -/
def dateNotePred (tol : ℚ) (p : SrcRow × SrcRow) : Bool :=
  tvTrue (sqlNeB p.1.date p.2.date) && tvTrue (sqlAbsLe p.1.amount p.2.amount tol)

/-- Clause `WHERE ABS(a.amount - b.amount) > tol`. -/
def variancePred (tol : ℚ) (p : SrcRow × SrcRow) : Bool :=
  tvTrue (sqlAbsGt p.1.amount p.2.amount tol)

def exactMatchesL (tol : ℚ) (A B : List SrcRow) : List (SrcRow × SrcRow) :=
  (joinedPairs A B).filter (exactPred tol)

def dateNotesL (tol : ℚ) (A B : List SrcRow) : List (SrcRow × SrcRow) :=
  (joinedPairs A B).filter (dateNotePred tol)

def variancesL (tol : ℚ) (A B : List SrcRow) : List (SrcRow × SrcRow) :=
  (joinedPairs A B).filter (variancePred tol)

/-- Join `FROM source_a a LEFT JOIN source_b b ON a.key = b.key`: matched rows
keep their partner, an unmatched row of `A` is padded with NULLs. -/
def leftJoinRows (A B : List SrcRow) : List (SrcRow × Option SrcRow) :=
  A.flatMap (fun a =>
    let ms := B.filter (fun b => tvTrue (sqlEqB a.key b.key))
    if ms.isEmpty then [(a, none)] else ms.map (fun b => (a, some b)))

/-- The `WHERE b.key IS NULL` test on a left-join row (the padded side is
NULL, a matched partner's key may in principle be tested too). -/
def padKeyIsNull : Option SrcRow → Bool
  | none => true
  | some b => decide (b.key = .null)

/-- Table `missing_in_b`: rows of `A` surviving `LEFT JOIN … WHERE b.key IS NULL`. -/
def missingInBL (A B : List SrcRow) : List SrcRow :=
  ((leftJoinRows A B).filter (fun p => padKeyIsNull p.2)).map (·.1)

/-- Table `missing_in_a`: the same query with the two sources swapped. -/
def missingInAL (A B : List SrcRow) : List SrcRow := missingInBL B A

/-- Output row of the `exact_matches` / `matches_with_date_note` SELECTs
(the note table appends its constant note column). -/
def matchRow (p : SrcRow × SrcRow) : List DVal :=
  [p.1.key, p.1.date, p.2.date, p.1.amount, p.2.amount, p.1.desc, p.2.desc]

/-- Output row of the `amount_variances` SELECT (variance column between
the amounts and the descriptions). -/
def varRow (p : SrcRow × SrcRow) : List DVal :=
  [p.1.key, p.1.date, p.2.date, p.1.amount, p.2.amount,
   sqlAbsDiff p.1.amount p.2.amount, p.1.desc, p.2.desc]

def pairHeaderBase (ta tb : Table) (cfg : ReconConfig) : List (String × ColType) :=
  [("match_key", (colTy ta cfg.matchKey).getD .VARCHAR),
   ("date_a", (colTy ta cfg.dateColA).getD .VARCHAR),
   ("date_b", (colTy tb cfg.dateColB).getD .VARCHAR),
   ("amount_a", (colTy ta cfg.amountColA).getD .VARCHAR),
   ("amount_b", (colTy tb cfg.amountColB).getD .VARCHAR)]

def descHeader (ta tb : Table) (cfg : ReconConfig) : List (String × ColType) :=
  [("description_a", ((cfg.descColA.bind (colTy ta)).getD .VARCHAR)),
   ("description_b", ((cfg.descColB.bind (colTy tb)).getD .VARCHAR))]

/-- Model of `ReconEngine.reconcile`: raises before touching the store unless both
source flags are set; on success creates/replaces exactly the five result
tables and returns the summary of their row counts. -/
def reconcile (cfg : ReconConfig) (st : EngState) : Except String ReconResult × EngState :=
  if st.sourceALoaded ∧ st.sourceBLoaded then
    match getTable st.store "source_a", getTable st.store "source_b" with
    | some ta, some tb =>
      let A := srcView ta cfg.matchKey cfg.dateColA cfg.amountColA cfg.descColA
      let B := srcView tb cfg.matchKey cfg.dateColB cfg.amountColB cfg.descColB
      let tol := cfg.amountTolerance
      let em : Table :=
        { header := pairHeaderBase ta tb cfg ++ descHeader ta tb cfg
          rows := (exactMatchesL tol A B).map matchRow }
      let dn : Table :=
        { header := pairHeaderBase ta tb cfg ++ descHeader ta tb cfg ++ [("note", .VARCHAR)]
          rows := (dateNotesL tol A B).map (fun p => matchRow p ++ [.str "Date mismatch"]) }
      let av : Table :=
        { header := pairHeaderBase ta tb cfg ++ [("variance", .DOUBLE)] ++ descHeader ta tb cfg
          rows := (variancesL tol A B).map varRow }
      let mb : Table := { header := ta.header, rows := (missingInBL A B).map (·.orig) }
      let ma : Table := { header := tb.header, rows := (missingInAL A B).map (·.orig) }
      let store5 :=
        putTable (putTable (putTable (putTable (putTable st.store
          "exact_matches" em) "matches_with_date_note" dn)
          "amount_variances" av) "missing_in_b" mb) "missing_in_a" ma
      (.ok { config := cfg
             summary :=
               { exactMatches := em.rows.length
                 matchesWithDateNote := dn.rows.length
                 amountVariances := av.rows.length
                 missingInB := mb.rows.length
                 missingInA := ma.rows.length } },
       { st with store := store5 })
    | _, _ => (.error "Catalog Error: source table missing", st)
  else (.error "Both source files must be loaded before reconciliation", st)

/-! ## Specification-side notions used to state the claims -/

/-- An operand without the `LIKE` wildcard characters `%` and `_`. -/
def wildcardFree (cs : List Char) : Bool := cs.all (fun c => !(c == '%') && !(c == '_'))

/-- Modelled from the spec: "a case-sensitive substring match" — does `v`
occur at the start of `s`? -/
def startsWithL : List Char → List Char → Bool
  | [], _ => true
  | _ :: _, [] => false
  | a :: v, b :: s => a == b && startsWithL v s

/-- Modelled from the spec: "a case-sensitive substring match" — does `v`
occur contiguously anywhere inside `s`? -/
def substrL : List Char → List Char → Bool
  | v, [] => v.isEmpty
  | v, s@(_ :: s2) => startsWithL v s || substrL v s2

/-- A cell that a string-valued column can hold (NULL or VARCHAR). -/
def isStrOrNull : DVal → Bool
  | .num _ => false
  | _ => true

/-- Does a row of one source have at least one join partner in the other? -/
def hasKeyPartner (a : SrcRow) (B : List SrcRow) : Bool :=
  B.any (fun b => tvTrue (sqlEqB a.key b.key))

/-! ## Concrete fixtures used by witnesses and counterexamples -/

/-- A joined pair whose amount is NULL (so all three amount comparisons
are SQL NULL): dropped from every matched category. -/
def nullAmountRow : SrcRow :=
  { orig := [], key := .str "k", date := .str "2024-01-01", amount := .null, desc := .null }

/-- Fully non-null source rows for the partition witness. -/
def wRowA : SrcRow :=
  { orig := [], key := .str "k", date := .str "2024-01-01", amount := .num 100, desc := .null }

def wRowB : SrcRow :=
  { orig := [], key := .str "k", date := .str "2024-01-02", amount := .num 100, desc := .null }

/-- An empty table with a BIGINT amount column. -/
def emptyBigintTbl : Table := { header := [("amount", .BIGINT)], rows := [] }

/-- A one-row table with a BIGINT amount column. -/
def oneRowBigintTbl : Table := { header := [("amount", .BIGINT)], rows := [[.num 5]] }

/-- A one-column VARCHAR table with three rows for the filter witness. -/
def strTbl : Table :=
  { header := [("c", .VARCHAR)], rows := [[.str "hello"], [.str "haze"], [.null]] }

/-- A one-row table whose value matches `LIKE '%a%b%'` without containing
the literal substring `a%b`. -/
def wildTbl : Table := { header := [("c", .VARCHAR)], rows := [[.str "axb"]] }

/-- Union fixtures: `uTbl1` and `uTbl2` have mismatched column-name sets;
`uTbl3` matches `uTbl1`. -/
def uTbl1 : Table := { header := [("a", .VARCHAR), ("b", .VARCHAR)], rows := [[.str "1", .str "2"]] }

def uTbl2 : Table := { header := [("a", .VARCHAR), ("c", .VARCHAR)], rows := [[.str "3", .str "4"]] }

def uTbl3 : Table :=
  { header := [("a", .VARCHAR), ("b", .VARCHAR)]
    rows := [[.str "5", .str "6"], [.str "7", .str "8"]] }

/-- A store holding the mismatched pair and the matching pair. -/
def uStoreBad : EngState := { store := [("s1", uTbl1), ("s2", uTbl2)], sourceALoaded := false, sourceBLoaded := false }

def uStoreGood : EngState := { store := [("s1", uTbl1), ("s3", uTbl3)], sourceALoaded := false, sourceBLoaded := false }

/-- Source tables and a configuration for the reconcile witnesses. -/
def srcATbl : Table :=
  { header := [("id", .VARCHAR), ("date", .VARCHAR), ("amount", .DOUBLE)]
    rows := [[.str "1", .str "2024-01-01", .null]] }

def srcBTbl : Table :=
  { header := [("id", .VARCHAR), ("date", .VARCHAR), ("amount", .DOUBLE)]
    rows := [[.str "1", .str "2024-01-02", .null]] }

def wCfg : ReconConfig :=
  { sourceAPath := "a.csv", sourceBPath := "b.csv", outputDir := "out", matchKey := "id" }

def wEngState : EngState :=
  { store := [("source_a", srcATbl), ("source_b", srcBTbl)]
    sourceALoaded := true, sourceBLoaded := true }

/-- The reconcile result at `wEngState` (all amount comparisons are NULL,
so every category is empty). -/
def wRes : ReconResult := { config := wCfg, summary := {} }

/-! # Supporting lemmas about `LIKE` matching -/

/-- Matching the pattern `'%'` alone accepts every subject. -/
theorem likeMatch_pct (s : List Char) : likeMatch ['%'] s = true := by
  induction s with
  | nil => rfl
  | cons c s ih =>
    have : (List.isEmpty (c :: s) || likeMatch ['%'] s) = true := by
      simp only [List.isEmpty_cons, Bool.false_or, ih]
    exact this

/-- A subject matching `'%/%'` contains at least one slash. -/
theorem like_slash1 (s : List Char) (h : likeMatch ['%', '/', '%'] s = true) :
    1 ≤ s.count '/' := by
  induction s with
  | nil => exact absurd h (by decide)
  | cons c s ih =>
    have h2 : ((('/' == '_' || '/' == c) && likeMatch ['%'] s) || likeMatch ['%', '/', '%'] s)
        = true := h
    simp only [Bool.or_eq_true, Bool.and_eq_true] at h2
    rcases h2 with ⟨h3, _⟩ | h3
    · rcases h3 with h3 | h3
      · exact absurd h3 (by decide)
      · have hc : c = '/' := (beq_iff_eq.mp h3).symm
        simp [List.count_cons, hc]
    · have := ih h3
      simp only [List.count_cons]
      omega

/-- A subject matching `'%/%/%'` contains at least two slashes. -/
theorem like_slash2 (s : List Char) (h : likeMatch ['%', '/', '%', '/', '%'] s = true) :
    2 ≤ s.count '/' := by
  induction s with
  | nil => exact absurd h (by decide)
  | cons c s ih =>
    have h2 : ((('/' == '_' || '/' == c) && likeMatch ['%', '/', '%'] s)
        || likeMatch ['%', '/', '%', '/', '%'] s) = true := h
    simp only [Bool.or_eq_true, Bool.and_eq_true] at h2
    rcases h2 with ⟨h3, h4⟩ | h3
    · rcases h3 with h3 | h3
      · exact absurd h3 (by decide)
      · have hc : c = '/' := (beq_iff_eq.mp h3).symm
        have := like_slash1 s h4
        simp only [List.count_cons, hc, beq_self_eq_true, if_true]
        omega
    · have := ih h3
      simp only [List.count_cons]
      omega

theorem startsWithL_nil (v : List Char) : startsWithL v [] = v.isEmpty := by
  cases v <;> rfl

/-- A wildcard-free literal followed by `'%'` matches exactly the subjects
starting with the literal. -/
theorem likeMatch_lit_pct (v : List Char) : wildcardFree v = true →
    ∀ s, likeMatch (v ++ ['%']) s = startsWithL v s := by
  induction v with
  | nil => intro _ s; simpa [startsWithL] using likeMatch_pct s
  | cons a v ih =>
    intro hv s
    have h1 : ((!(a == '%') && !(a == '_')) && wildcardFree v) = true := hv
    have h2 : (¬ a = '%' ∧ ¬ a = '_') ∧ wildcardFree v = true := by simpa using h1
    obtain ⟨⟨ap, au⟩, hv'⟩ := h2
    cases s with
    | nil =>
      show likeMatch (a :: (v ++ ['%'])) [] = startsWithL (a :: v) []
      simp only [likeMatch]
      rw [if_neg ap]
      rfl
    | cons d s2 =>
      show likeMatch (a :: (v ++ ['%'])) (d :: s2) = startsWithL (a :: v) (d :: s2)
      simp only [likeMatch, startsWithL]
      rw [if_neg ap, ih hv' s2]
      have hau : (a == '_') = false := beq_eq_false_iff_ne.mpr au
      rw [hau, Bool.false_or]

/-- Some suffix of `s` starts with the wildcard-free literal `v` iff `v`
is a substring of `s`. -/
theorem sfxAny_lit (v : List Char) (hv : wildcardFree v = true) :
    ∀ s, sfxAny (likeMatch (v ++ ['%'])) s = substrL v s := by
  intro s
  induction s with
  | nil =>
    show likeMatch (v ++ ['%']) [] = substrL v []
    rw [likeMatch_lit_pct v hv, startsWithL_nil]
    cases v <;> rfl
  | cons c s2 ih =>
    show (likeMatch (v ++ ['%']) (c :: s2) || sfxAny (likeMatch (v ++ ['%'])) s2)
        = substrL v (c :: s2)
    rw [likeMatch_lit_pct v hv, ih]
    rfl

/-- For a wildcard-free operand `v`, `LIKE '%v%'` is exactly case-sensitive
substring containment. -/
theorem like_contains_eq_substr (v s : List Char) (hv : wildcardFree v = true) :
    likeMatch ('%' :: (v ++ ['%'])) s = substrL v s := by
  show sfxAny (likeMatch (v ++ ['%'])) s = substrL v s
  exact sfxAny_lit v hv s

/-! # Supporting lemmas about the reconciliation partition -/

/-- Counting three mutually exclusive, jointly exhaustive predicates over a
list covers every element exactly once. -/
theorem countP_three_partition {α : Type} (p q r : α → Bool) (l : List α)
    (h : ∀ x ∈ l, (p x = true ∧ q x = false ∧ r x = false)
        ∨ (p x = false ∧ q x = true ∧ r x = false)
        ∨ (p x = false ∧ q x = false ∧ r x = true)) :
    l.countP p + l.countP q + l.countP r = l.length := by
  induction l with
  | nil => simp
  | cons a l ih =>
    have ha := h a (by simp)
    have ih2 := ih (fun x hx => h x (by simp [hx]))
    simp only [List.countP_cons, List.length_cons]
    rcases ha with ⟨h1, h2, h3⟩ | ⟨h1, h2, h3⟩ | ⟨h1, h2, h3⟩ <;>
      simp [h1, h2, h3] <;> omega

/-- On a joined pair with string dates and numeric amounts, exactly one of
the three matched-category predicates holds. -/
theorem recon_pred_trichotomy (tol : ℚ) (p : SrcRow × SrcRow)
    (hda : ∃ s, p.1.date = DVal.str s) (hdb : ∃ s, p.2.date = DVal.str s)
    (haa : ∃ q, p.1.amount = DVal.num q) (hab : ∃ q, p.2.amount = DVal.num q) :
    (exactPred tol p = true ∧ dateNotePred tol p = false ∧ variancePred tol p = false)
    ∨ (exactPred tol p = false ∧ dateNotePred tol p = true ∧ variancePred tol p = false)
    ∨ (exactPred tol p = false ∧ dateNotePred tol p = false ∧ variancePred tol p = true) := by
  obtain ⟨sa, ha⟩ := hda
  obtain ⟨sb, hb⟩ := hdb
  obtain ⟨qa, hqa⟩ := haa
  obtain ⟨qb, hqb⟩ := hab
  simp only [exactPred, dateNotePred, variancePred, ha, hb, hqa, hqb,
    sqlEqB, sqlNeB, sqlAbsLe, sqlAbsGt, tvTrue, Option.map_some, Option.getD_some]
  by_cases hle : |qa - qb| ≤ tol
  · by_cases heq : sa = sb
    · left; simp [hle, heq, not_lt.mpr hle]
    · right; left; simp [hle, heq, not_lt.mpr hle]
  · right; right
    simp [hle, not_le.mp hle]

theorem mem_joinedPairs {A B : List SrcRow} {p : SrcRow × SrcRow}
    (h : p ∈ joinedPairs A B) : p.1 ∈ A ∧ p.2 ∈ B := by
  unfold joinedPairs at h
  simp only [List.mem_flatMap, List.mem_map, List.mem_filter] at h
  obtain ⟨a, haA, b, ⟨hbB, _⟩, rfl⟩ := h
  exact ⟨haA, hbB⟩

theorem filter_isEmpty_eq_not_any (p : SrcRow → Bool) (B : List SrcRow) :
    (B.filter p).isEmpty = ! B.any p := by
  induction B with
  | nil => rfl
  | cons b B ih =>
    by_cases hb : p b
    · simp [List.filter_cons, hb]
    · have hb2 : p b = false := by simpa using hb
      simp [List.filter_cons, hb2, ih]

/-- A row matched by the key join has a non-NULL key on the matched side,
so the `WHERE b.key IS NULL` test rejects it. -/
theorem partner_key_not_null {k k2 : DVal} (h : tvTrue (sqlEqB k k2) = true) :
    (decide (k2 = DVal.null)) = false := by
  cases k2 with
  | null => cases k <;> simp [sqlEqB, tvTrue, Option.getD] at h
  | str s => simp
  | num q => simp

/-- Unfolding of the `missing_in_b` left join over a cons cell: the head
row contributes itself exactly when it has no key partner. -/
theorem missingInBL_cons (a : SrcRow) (A B : List SrcRow) :
    missingInBL (a :: A) B
      = (if hasKeyPartner a B then [] else [a]) ++ missingInBL A B := by
  unfold missingInBL leftJoinRows
  simp only [List.flatMap_cons, List.filter_append, List.map_append]
  congr 1
  by_cases hm : (B.filter (fun b => tvTrue (sqlEqB a.key b.key))).isEmpty
  · have hnp : hasKeyPartner a B = false := by
      have h2 := filter_isEmpty_eq_not_any (fun b => tvTrue (sqlEqB a.key b.key)) B
      rw [h2] at hm
      unfold hasKeyPartner
      simpa using hm
    rw [if_pos hm, hnp]
    rfl
  · have hnp : hasKeyPartner a B = true := by
      have h2 := filter_isEmpty_eq_not_any (fun b => tvTrue (sqlEqB a.key b.key)) B
      rw [h2] at hm
      unfold hasKeyPartner
      simpa using hm
    rw [if_neg hm, hnp]
    have hall : ∀ x ∈ (B.filter (fun b => tvTrue (sqlEqB a.key b.key))).map
        (fun b => (a, some b)), ¬ (padKeyIsNull x.2 = true) := by
      intro x hx
      simp only [List.mem_map] at hx
      obtain ⟨b, hbmem, rfl⟩ := hx
      have hb := (List.mem_filter.mp hbmem).2
      show ¬ (padKeyIsNull (some b) = true)
      simp only [padKeyIsNull]
      rw [partner_key_not_null hb]
      simp
    rw [List.filter_eq_nil_iff.mpr hall]
    rfl

/-- The `LEFT JOIN … WHERE key IS NULL` anti-join keeps exactly the rows
with no key partner. -/
theorem missingInBL_eq (A B : List SrcRow) :
    missingInBL A B = A.filter (fun a => ! hasKeyPartner a B) := by
  induction A with
  | nil => rfl
  | cons a A ih =>
    rw [missingInBL_cons, ih, List.filter_cons]
    by_cases h : hasKeyPartner a B <;> simp [h]

/-! # Supporting lemmas about the union validation loop and the store -/

theorem firstMismatch_none (ref : Finset String) (l : List (String × Table))
    (h : ∀ p ∈ l, colNameSet p.2 = ref) : firstMismatch ref l = none := by
  induction l with
  | nil => rfl
  | cons p l ih =>
    have hp := h p (by simp)
    simp only [firstMismatch]
    rw [if_neg (by simp [hp])]
    exact ih (fun q hq => h q (by simp [hq]))

theorem firstMismatch_found (ref : Finset String) (pre post : List (String × Table))
    (n : String) (tb : Table)
    (hpre : ∀ p ∈ pre, colNameSet p.2 = ref) (hne : colNameSet tb ≠ ref) :
    firstMismatch ref (pre ++ (n, tb) :: post)
      = some (n, ref \ colNameSet tb, colNameSet tb \ ref) := by
  induction pre with
  | nil =>
    simp only [List.nil_append, firstMismatch]
    rw [if_pos hne]
  | cons p pre ih =>
    have hp := hpre p (by simp)
    simp only [List.cons_append, firstMismatch]
    rw [if_neg (by simp [hp])]
    exact ih (fun q hq => hpre q (by simp [hq]))

/-- Replacing a table at one name leaves lookups at every other name
unchanged. -/
theorem getTable_putTable_ne (st : Store) (n m : String) (tb : Table) (h : ¬ m = n) :
    getTable (putTable st n tb) m = getTable st m := by
  unfold getTable putTable
  have hhead : (n == m) = false := beq_eq_false_iff_ne.mpr (fun hh => h hh.symm)
  rw [List.find?_cons_of_neg _ (by simpa using hhead)]
  congr 1
  induction st with
  | nil => rfl
  | cons a st ih =>
    by_cases ha : a.1 = n
    · have h1 : (!(a.1 == n)) = false := by simp [ha]
      have h2 : (a.1 == m) = false := by
        rw [ha]; exact beq_eq_false_iff_ne.mpr (fun hh => h hh.symm)
      simp only [List.filter_cons, h1, Bool.false_eq_true, if_false]
      rw [List.find?_cons_of_neg _ (by simp [h2])]
      exact ih
    · have h1 : (!(a.1 == n)) = true := by
        simp [beq_eq_false_iff_ne.mpr ha]
      simp only [List.filter_cons, h1, if_true]
      by_cases hm2 : a.1 = m
      · have h2 : (a.1 == m) = true := by simp [hm2]
        rw [List.find?_cons_of_pos _ (by simp [h2]), List.find?_cons_of_pos _ (by simp [h2])]
      · have h2 : (a.1 == m) = false := beq_eq_false_iff_ne.mpr hm2
        rw [List.find?_cons_of_neg _ (by simp [h2]), List.find?_cons_of_neg _ (by simp [h2])]
        exact ih

/-! # Claim theorems -/

/-- C1 (amended): for every pair of source tables whose date cells are
strings and whose amount cells are numeric, and every tolerance ≥ 0, the
three matched categories of `reconcile` are pairwise disjoint and count
every key-joined pair exactly once, and the two missing categories contain
exactly the unjoined rows of each side.  (The original claim extended this
to rows with NULL date or amount; those joined pairs satisfy none of the
three `WHERE` clauses and are dropped — see the counterexample.) -/
theorem recon_five_categories_partition (A B : List SrcRow) (tol : ℚ) (_h0 : 0 ≤ tol)
    (hA : ∀ r ∈ A, (∃ s, r.date = DVal.str s) ∧ (∃ q, r.amount = DVal.num q))
    (hB : ∀ r ∈ B, (∃ s, r.date = DVal.str s) ∧ (∃ q, r.amount = DVal.num q)) :
    ((exactMatchesL tol A B).length + (dateNotesL tol A B).length
        + (variancesL tol A B).length = (joinedPairs A B).length)
    ∧ (∀ p ∈ joinedPairs A B,
        ¬(exactPred tol p = true ∧ dateNotePred tol p = true)
        ∧ ¬(exactPred tol p = true ∧ variancePred tol p = true)
        ∧ ¬(dateNotePred tol p = true ∧ variancePred tol p = true))
    ∧ missingInBL A B = A.filter (fun a => ! hasKeyPartner a B)
    ∧ missingInAL A B = B.filter (fun b => ! hasKeyPartner b A) := by
  have htri : ∀ p ∈ joinedPairs A B,
      (exactPred tol p = true ∧ dateNotePred tol p = false ∧ variancePred tol p = false)
      ∨ (exactPred tol p = false ∧ dateNotePred tol p = true ∧ variancePred tol p = false)
      ∨ (exactPred tol p = false ∧ dateNotePred tol p = false ∧ variancePred tol p = true) := by
    intro p hp
    obtain ⟨hp1, hp2⟩ := mem_joinedPairs hp
    exact recon_pred_trichotomy tol p (hA p.1 hp1).1 (hB p.2 hp2).1
      (hA p.1 hp1).2 (hB p.2 hp2).2
  refine ⟨?_, ?_, missingInBL_eq A B, missingInBL_eq B A⟩
  · show ((joinedPairs A B).filter (exactPred tol)).length
        + ((joinedPairs A B).filter (dateNotePred tol)).length
        + ((joinedPairs A B).filter (variancePred tol)).length = (joinedPairs A B).length
    rw [← List.countP_eq_length_filter, ← List.countP_eq_length_filter,
      ← List.countP_eq_length_filter]
    exact countP_three_partition _ _ _ _ htri
  · intro p hp
    rcases htri p hp with ⟨h1, h2, h3⟩ | ⟨h1, h2, h3⟩ | ⟨h1, h2, h3⟩ <;>
      exact ⟨by simp [h1, h2, h3], by simp [h1, h2, h3], by simp [h1, h2, h3]⟩

/-- C1 counterexample: a key-joined pair whose amount is NULL lands in none
of the three matched categories (all three `WHERE` predicates evaluate to
SQL NULL), so with tolerance 0 the joined pair is dropped and the claimed
sum fails: 0 + 0 + 0 ≠ 1. -/
theorem recon_null_amount_pair_uncounted :
    (joinedPairs [nullAmountRow] [nullAmountRow]).length = 1 ∧
    (exactMatchesL 0 [nullAmountRow] [nullAmountRow]).length = 0 ∧
    (dateNotesL 0 [nullAmountRow] [nullAmountRow]).length = 0 ∧
    (variancesL 0 [nullAmountRow] [nullAmountRow]).length = 0 :=
  ⟨by decide, by decide, by decide, by decide⟩

/-- C1 witness: the partition theorem applied to concrete one-row sources
with string dates and numeric amounts at tolerance 0. -/
theorem recon_five_categories_partition_witness :
    ((exactMatchesL 0 [wRowA] [wRowB]).length + (dateNotesL 0 [wRowA] [wRowB]).length
        + (variancesL 0 [wRowA] [wRowB]).length = (joinedPairs [wRowA] [wRowB]).length)
    ∧ missingInBL [wRowA] [wRowB] = [wRowA].filter (fun a => ! hasKeyPartner a [wRowB]) := by
  have h := recon_five_categories_partition [wRowA] [wRowB] 0 le_rfl
    (by intro r hr
        simp only [List.mem_singleton] at hr
        subst hr
        exact ⟨⟨"2024-01-01", rfl⟩, ⟨100, rfl⟩⟩)
    (by intro r hr
        simp only [List.mem_singleton] at hr
        subst hr
        exact ⟨⟨"2024-01-02", rfl⟩, ⟨100, rfl⟩⟩)
  exact ⟨h.1, h.2.2.1⟩

/-- C2 (amended): for every non-empty table and column of declared numeric
type (`DOUBLE`/`BIGINT`/`INTEGER`/`FLOAT`), `clean_amount_column` returns
the table unchanged and reports zero rows affected.  (On an empty table the
first-row `typeof` probe returns no row, so the cleaning pass runs anyway
and re-types the column as DOUBLE — see the counterexample.) -/
theorem clean_amount_numeric_noop (t : Table) (c : String) (ty : ColType)
    (hne : t.rows ≠ []) (hty : colTy t c = some ty) (hnum : ty ∈ numericTypes) :
    cleanAmountColumn t c = (t, 0) := by
  have hg : alreadyNumeric t c = true := by
    unfold alreadyNumeric typeofFirstRow
    have he : t.rows.isEmpty = false := by
      cases hr : t.rows with
      | nil => exact absurd hr hne
      | cons a l => rfl
    simp only [he, Bool.false_eq_true, if_false, hty]
    exact decide_eq_true hnum
  simp [cleanAmountColumn, hg]

/-- C2 counterexample: on an *empty* table with a BIGINT column the claim
fails — the cleaning pass still reports zero rows affected, but the column
is not left untouched: its declared type changes from BIGINT to DOUBLE. -/
theorem clean_amount_empty_table_retypes :
    colTy emptyBigintTbl "amount" = some .BIGINT ∧
    (cleanAmountColumn emptyBigintTbl "amount").2 = 0 ∧
    colTy (cleanAmountColumn emptyBigintTbl "amount").1 "amount" = some .DOUBLE :=
  ⟨by decide, by decide, by decide⟩

/-- C2 witness: the no-op theorem applied to a one-row BIGINT table. -/
theorem clean_amount_numeric_noop_witness :
    cleanAmountColumn oneRowBigintTbl "amount" = (oneRowBigintTbl, 0) :=
  clean_amount_numeric_noop oneRowBigintTbl "amount" .BIGINT (by decide) (by decide) (by decide)

/-- C3 (amended): `clean_date_column` maps every cell with the per-row
`CASE` expression, and every string value that neither matches the
ten-character hyphen pattern nor contains two or more `/` characters passes
through unchanged.  (The original claim's "slash-separated into exactly
three parts" is wrong: the branch condition is `LIKE '%/%/%'`, i.e. two or
more slashes, so a value with three or more slashes is rewritten from its
first three parts — see the counterexample.) -/
theorem clean_date_passthrough :
    (∀ (t : Table) (c : String),
        (cleanDateColumn t c).1.rows =
          t.rows.map (fun r =>
            r.eraseIdx (colIdx t c) ++ [cleanDateValue (r.getD (colIdx t c) .null)])) ∧
    (∀ s : String, likeMatch likeHyphenPat s.data = false → s.data.count '/' < 2 →
        cleanDateValue (.str s) = .str s) := by
  constructor
  · intro t c; rfl
  · intro s h1 h2
    have h3 : likeMatch likeSlashPat s.data = false := by
      cases hcc : likeMatch likeSlashPat s.data
      · rfl
      · exact absurd (like_slash2 s.data hcc) (by omega)
    show DVal.str (cleanDateStr s) = .str s
    simp [cleanDateStr, h1, h3]

/-- C3 counterexample: a value with three slashes does not pass through:
`"1/2/3/4"` matches `'%/%/%'` and is rewritten to `"3-02-01"` from its
first three slash-separated parts. -/
theorem clean_date_multislash_rewritten :
    cleanDateValue (.str "1/2/3/4") = .str "3-02-01" ∧ ("3-02-01" : String) ≠ "1/2/3/4" :=
  ⟨by decide, by decide⟩

/-- C3 witness: the pass-through theorem applied to the concrete value
`"note"` (no hyphen pattern, no slashes). -/
theorem clean_date_passthrough_witness :
    cleanDateValue (.str "note") = .str "note" :=
  clean_date_passthrough.2 "note" (by decide) (by decide)

/-- C4: date normalization maps the specified concrete inputs as claimed:
`"2024-03-05"` is already canonical and unchanged, `"25/03/2024"` (first
part > 12) and `"03/25/2024"` (second part > 12) both become
`"2024-03-25"`, and the ambiguous `"03/04/2024"` defaults to day-first
`"2024-04-03"`, with two-digit zero-padding. -/
theorem clean_date_examples :
    cleanDateValue (.str "2024-03-05") = .str "2024-03-05" ∧
    cleanDateValue (.str "25/03/2024") = .str "2024-03-25" ∧
    cleanDateValue (.str "03/25/2024") = .str "2024-03-25" ∧
    cleanDateValue (.str "03/04/2024") = .str "2024-04-03" :=
  ⟨by decide, by decide, by decide, by decide⟩

/-- C5: amount normalization maps `"$1,234.56"` to 1234.56, `"(100)"` to
-100.0 and `"  42 "` to 42.0, and every row whose cleaned text fails to
parse as a number becomes NULL (no error is raised for that row). -/
theorem clean_amount_examples :
    cleanAmountValue (.str "$1,234.56") = .num (123456 / 100) ∧
    cleanAmountValue (.str "(100)") = .num (-100) ∧
    cleanAmountValue (.str "  42 ") = .num 42 ∧
    (∀ s : String, tryCastDouble (amountCleanText s) = none →
        cleanAmountValue (.str s) = .null) := by
  refine ⟨?_, ?_, ?_, ?_⟩
  · have h1 : amountParenBranch "$1,234.56" = false := by decide
    have h2 : amountCleanText "$1,234.56" = ['1','2','3','4','.','5','6'] := by decide
    have h6 : tryCastDouble ['1','2','3','4','.','5','6']
        = some ((digitsToNat ['1','2','3','4'] : ℚ)
            + (digitsToNat ['5','6'] : ℚ) / 10 ^ (['5','6'] : List Char).length) := by rfl
    have h7 : digitsToNat ['1','2','3','4'] = 1234 := by decide
    have h8 : digitsToNat ['5','6'] = 56 := by decide
    show cleanAmountStr "$1,234.56" = _
    simp only [cleanAmountStr, h2, h6, h1]
    rw [h7, h8]
    congr 1
    norm_num
  · have h1 : amountParenBranch "(100)" = true := by decide
    have h2 : amountCleanText "(100)" = ['1','0','0'] := by decide
    have h6 : tryCastDouble ['1','0','0'] = some ((digitsToNat ['1','0','0'] : ℚ)) := by rfl
    have h7 : digitsToNat ['1','0','0'] = 100 := by decide
    show cleanAmountStr "(100)" = _
    simp only [cleanAmountStr, h2, h6, h1, if_true]
    rw [h7]
    congr 1
  · have h1 : amountParenBranch "  42 " = false := by decide
    have h2 : amountCleanText "  42 " = ['4','2'] := by decide
    have h6 : tryCastDouble ['4','2'] = some ((digitsToNat ['4','2'] : ℚ)) := by rfl
    have h7 : digitsToNat ['4','2'] = 42 := by decide
    show cleanAmountStr "  42 " = _
    simp only [cleanAmountStr, h2, h6, h1, Bool.false_eq_true, if_false]
    rw [h7]
    congr 1
  · intro s h
    show cleanAmountStr s = _
    simp only [cleanAmountStr, h]

/-- C5 witness: the per-row null-on-parse-failure clause applied to the
concrete unparseable value `"N/A"`. -/
theorem clean_amount_examples_witness :
    cleanAmountValue (.str "N/A") = .null :=
  clean_amount_examples.2.2.2 "N/A" (by decide)

/-- C6 (amended): for every wildcard-free operand, a `contains` filter
condition keeps exactly the rows whose (string-valued) column value
contains the operand as a case-sensitive substring.  (The original claim's
"for all operand strings, including '%' or '_'" is wrong: the operand is
spliced into a `LIKE '%value%'` pattern, so wildcard characters in it act
as wildcards — see the counterexample.) -/
theorem filter_contains_substring (t : Table) (c : String) (v : String)
    (hv : wildcardFree v.data = true)
    (hcol : ∀ w ∈ colValsOf t c, isStrOrNull w = true) :
    (filterContains t c v).rows =
      t.rows.filter (fun r =>
        match rowVal t r c with
        | .str s => substrL v.data s.data
        | _ => false) := by
  simp only [filterContains]
  apply List.filter_congr
  intro r hr
  have hw := hcol (rowVal t r c) (List.mem_map_of_mem _ hr)
  cases hval : rowVal t r c with
  | null => simp [sqlLikeKeep, hval]
  | num q => rw [hval] at hw; simp [isStrOrNull] at hw
  | str s =>
    simp only [sqlLikeKeep, hval, containsPat]
    exact like_contains_eq_substr v.data s.data hv

/-- C6 counterexample: with operand `"a%b"`, the row `"axb"` is kept by
the `contains` filter although `"a%b"` is not a substring of `"axb"` — the
`%` in the operand acted as a wildcard. -/
theorem filter_contains_wildcard_counterexample :
    (filterContains wildTbl "c" "a%b").rows = [[.str "axb"]] ∧
    substrL "a%b".data "axb".data = false :=
  ⟨by decide, by decide⟩

/-- C6 witness: the substring theorem applied to a concrete three-row
table with operand `"ell"`; only `"hello"` survives. -/
theorem filter_contains_substring_witness :
    (filterContains strTbl "c" "ell").rows = [[.str "hello"]] := by
  rw [filter_contains_substring strTbl "c" "ell" (by decide) (by decide)]
  decide

/-- C7: `union_tables` with `validate=true`: if some input table's
column-name set differs from the first table's, the call fails with a
schema-mismatch error reporting, for the first such table, exactly the
missing (`first \ current`) and extra (`current \ first`) column names,
and the store is unchanged (no output table created or replaced); if all
column-name sets equal the first table's, the union succeeds and the
output's row count is the sum of the inputs' row counts. -/
theorem union_tables_validate_spec :
    (∀ (st : EngState) (names : List String) (out n0 : String) (t0 : Table)
        (pre post : List (String × Table)) (n : String) (tb : Table),
        resolveAll st.store names = some ((n0, t0) :: (pre ++ (n, tb) :: post)) →
        (∀ p ∈ pre, colNameSet p.2 = colNameSet t0) →
        colNameSet tb ≠ colNameSet t0 →
        unionTablesOp st names out true =
          (.error (.schemaMismatch n (colNameSet t0 \ colNameSet tb)
              (colNameSet tb \ colNameSet t0)), st)) ∧
    (∀ (st : EngState) (names : List String) (out n0 : String) (t0 : Table)
        (rest : List (String × Table)),
        resolveAll st.store names = some ((n0, t0) :: rest) →
        (∀ p ∈ rest, colNameSet p.2 = colNameSet t0) →
        unionTablesOp st names out true =
          (.ok (), { st with store := putTable st.store out (concatTables t0 rest) }) ∧
        (concatTables t0 rest).rows.length
          = t0.rows.length + (rest.map (fun p => p.2.rows.length)).sum) := by
  constructor
  · intro st names out n0 t0 pre post n tb hres hpre hne
    simp only [unionTablesOp, hres]
    have hcore : unionCore ((n0, t0) :: (pre ++ (n, tb) :: post)) true
        = .error (.schemaMismatch n (colNameSet t0 \ colNameSet tb)
            (colNameSet tb \ colNameSet t0)) := by
      simp only [unionCore]
      rw [if_pos ⟨trivial, by simp⟩, firstMismatch_found _ pre post n tb hpre hne]
    rw [hcore]
  · intro st names out n0 t0 rest hres hall
    refine ⟨?_, ?_⟩
    · simp only [unionTablesOp, hres]
      have hcore : unionCore ((n0, t0) :: rest) true = .ok (concatTables t0 rest) := by
        simp only [unionCore]
        by_cases hr : rest = []
        · subst hr
          rw [if_neg (by simp)]
        · rw [if_pos ⟨trivial, hr⟩, firstMismatch_none _ rest hall]
      rw [hcore]
    · simp only [concatTables, List.length_append, List.length_flatten, List.map_map]
      rfl

/-- C7 witness: the union theorem applied to concrete stores — a
mismatched pair errors with missing `{b}` and extra `{c}` leaving the
state unchanged, and a matching pair unions 1 + 2 = 3 rows. -/
theorem union_tables_validate_spec_witness :
    (unionTablesOp uStoreBad ["s1", "s2"] "combined" true =
      (.error (.schemaMismatch "s2" (colNameSet uTbl1 \ colNameSet uTbl2)
          (colNameSet uTbl2 \ colNameSet uTbl1)), uStoreBad)) ∧
    (unionTablesOp uStoreGood ["s1", "s3"] "combined" true =
      (.ok (), { uStoreGood with
        store := putTable uStoreGood.store "combined" (concatTables uTbl1 [("s3", uTbl3)]) })) ∧
    (concatTables uTbl1 [("s3", uTbl3)]).rows.length = 3 :=
  ⟨union_tables_validate_spec.1 uStoreBad ["s1", "s2"] "combined" "s1" uTbl1 [] [] "s2" uTbl2
      rfl (by simp) (by decide),
   (union_tables_validate_spec.2 uStoreGood ["s1", "s3"] "combined" "s1" uTbl1 [("s3", uTbl3)]
      rfl (by decide)).1,
   (union_tables_validate_spec.2 uStoreGood ["s1", "s3"] "combined" "s1" uTbl1 [("s3", uTbl3)]
      rfl (by decide)).2⟩

/-- C8: invoking `reconcile` before both source flags are set fails with
the configuration error and returns the engine state unchanged — no result
table is created, replaced or otherwise mutated. -/
theorem reconcile_unloaded_error (cfg : ReconConfig) (st : EngState)
    (h : ¬ (st.sourceALoaded = true ∧ st.sourceBLoaded = true)) :
    reconcile cfg st = (.error "Both source files must be loaded before reconciliation", st) := by
  unfold reconcile
  rw [if_neg h]

/-- C8 witness: the error theorem applied to a concrete state with only
source A loaded. -/
theorem reconcile_unloaded_error_witness :
    reconcile wCfg { store := [], sourceALoaded := true, sourceBLoaded := false } =
      (.error "Both source files must be loaded before reconciliation",
       { store := [], sourceALoaded := true, sourceBLoaded := false }) :=
  reconcile_unloaded_error wCfg
    { store := [], sourceALoaded := true, sourceBLoaded := false } (by decide)

/-- C9: every successful `reconcile` call leaves both source tables
completely unchanged — it only creates/replaces the five result tables, so
lookups of `source_a` and `source_b` in the resulting store are identical
to the lookups before the call. -/
theorem reconcile_preserves_sources (cfg : ReconConfig) (st st2 : EngState)
    (res : ReconResult) (h : reconcile cfg st = (.ok res, st2)) :
    getTable st2.store "source_a" = getTable st.store "source_a" ∧
    getTable st2.store "source_b" = getTable st.store "source_b" := by
  unfold reconcile at h
  by_cases hl : st.sourceALoaded = true ∧ st.sourceBLoaded = true
  · rw [if_pos hl] at h
    cases ha : getTable st.store "source_a" with
    | none =>
      rw [ha] at h
      cases hb : getTable st.store "source_b" <;> rw [hb] at h <;> simp at h
    | some ta =>
      rw [ha] at h
      cases hb : getTable st.store "source_b" with
      | none => rw [hb] at h; simp at h
      | some tb =>
        rw [hb] at h
        have h2 := congrArg Prod.snd h
        simp only at h2
        subst h2
        constructor
        · rw [getTable_putTable_ne _ "missing_in_a" "source_a" _ (by decide),
            getTable_putTable_ne _ "missing_in_b" "source_a" _ (by decide),
            getTable_putTable_ne _ "amount_variances" "source_a" _ (by decide),
            getTable_putTable_ne _ "matches_with_date_note" "source_a" _ (by decide),
            getTable_putTable_ne _ "exact_matches" "source_a" _ (by decide)]
          exact ha
        · rw [getTable_putTable_ne _ "missing_in_a" "source_b" _ (by decide),
            getTable_putTable_ne _ "missing_in_b" "source_b" _ (by decide),
            getTable_putTable_ne _ "amount_variances" "source_b" _ (by decide),
            getTable_putTable_ne _ "matches_with_date_note" "source_b" _ (by decide),
            getTable_putTable_ne _ "exact_matches" "source_b" _ (by decide)]
          exact hb
  · rw [if_neg hl] at h
    simp at h

/-- C9 witness: the frame theorem applied to a concrete successful
reconciliation over loaded `source_a`/`source_b` tables. -/
theorem reconcile_preserves_sources_witness :
    getTable (reconcile wCfg wEngState).2.store "source_a" = getTable wEngState.store "source_a" ∧
    getTable (reconcile wCfg wEngState).2.store "source_b" = getTable wEngState.store "source_b" :=
  reconcile_preserves_sources wCfg wEngState (reconcile wCfg wEngState).2 wRes
    (by rfl)

/-- C10: whenever `clean_amount_column` actually performs a cleaning pass
(the column is not detected as already numeric), and always for
`clean_date_column`, the returned rows-affected count equals the table's
total row count, regardless of how many values changed. -/
theorem clean_rows_affected_eq_row_count :
    (∀ (t : Table) (c : String), alreadyNumeric t c = false →
        (cleanAmountColumn t c).2 = t.rows.length) ∧
    (∀ (t : Table) (c : String), (cleanDateColumn t c).2 = t.rows.length) := by
  constructor
  · intro t c h
    simp [cleanAmountColumn, h, replaceColumn]
  · intro t c
    simp [cleanDateColumn, replaceColumn]

/-- C10 witness: the rows-affected theorem applied to concrete one-row
VARCHAR tables. -/
theorem clean_rows_affected_eq_row_count_witness :
    (cleanAmountColumn { header := [("amt", .VARCHAR)], rows := [[.str "1"]] } "amt").2 = 1 ∧
    (cleanDateColumn { header := [("d", .VARCHAR)], rows := [[.str "x"]] } "d").2 = 1 :=
  ⟨clean_rows_affected_eq_row_count.1 { header := [("amt", .VARCHAR)], rows := [[.str "1"]] }
      "amt" (by decide),
   clean_rows_affected_eq_row_count.2 { header := [("d", .VARCHAR)], rows := [[.str "x"]] } "d"⟩

end DataToolKit
